import Mathlib

/-!
Verification of the CompressPhotoFast CLI core against its specification.

The Python sources are shallowly embedded:
* Python strings are `List Char` (`Str` below); Python `str.split(":")`,
  `str.strip()`, `int(...)` and f-string formatting of integers are modelled
  by `splitColon`, `pyStrip`, `pyIntParse` and `intChars` (ASCII digits; the
  unicode-digit forms Python's `int` also accepts are out of scope).
* `constants.py` is imported by the sources but is not part of the
  repository's files, so every constant it provides (the marker magic
  string, threshold values, the supported-extension list) is a parameter of
  the embedding rather than a fixed value.
* The filesystem is a map from paths to file contents; file contents are
  abstract blobs carrying a byte size.  External image/EXIF libraries (PIL,
  piexif) are oracles in a `CompressEnv`: each library call's outcome
  (decoded format, encoded bytes, raised exception) is an environment field,
  and the embedded control flow around those outcomes follows the source.
-/

set_option maxRecDepth 4000

namespace CompressPhotoFast

/-- Python strings, modelled as lists of characters. -/
abbrev Str := List Char

/-- Python `str.split` / `int` whitespace: space, tab, newline, carriage
return, vertical tab, form feed. -/
def pyIsSpace (c : Char) : Bool :=
  decide (c.toNat = 32 ∨ c.toNat = 9 ∨ c.toNat = 10 ∨ c.toNat = 13 ∨
    c.toNat = 11 ∨ c.toNat = 12)

/-- ASCII decimal digit, as accepted by Python's `int`. -/
def pyIsDigit (c : Char) : Bool :=
  decide (48 ≤ c.toNat ∧ c.toNat ≤ 57)

/-- Strip leading and trailing whitespace (Python `str.strip()`, as `int`
applies it to its argument). -/
def pyStrip (l : Str) : Str :=
  ((l.dropWhile pyIsSpace).reverse.dropWhile pyIsSpace).reverse

/-- Digit run as Python's `int` accepts after the optional sign: nonempty,
underscores allowed only between digits. -/
def digitsUnd : List Char → Bool
  | [] => false
  | [c] => pyIsDigit c
  | c :: d :: rest =>
    pyIsDigit c && (if d = '_' then digitsUnd rest else digitsUnd (d :: rest))

/-- Numeric value of a digit run (underscores dropped, base 10). -/
def digitsVal (l : List Char) : Nat :=
  (l.filter (fun c => c != '_')).foldl (fun a c => a * 10 + (c.toNat - 48)) 0

/-- Python `int(s)`: strip whitespace, optional sign, ASCII digit run;
`none` models the `ValueError` that `get_compression_info` catches. -/
def pyIntParse (l : Str) : Option Int :=
  let t := pyStrip l
  if t.length = 0 then none
  else
    let c := t.headD ' '
    let rest := t.tail
    if c = '-' then
      if digitsUnd rest then some (-(digitsVal rest : Int)) else none
    else if c = '+' then
      if digitsUnd rest then some ((digitsVal rest : Int)) else none
    else
      if digitsUnd t then some ((digitsVal t : Int)) else none

/-- The decimal digit characters. -/
def digitChar : Nat → Char
  | 0 => '0' | 1 => '1' | 2 => '2' | 3 => '3' | 4 => '4'
  | 5 => '5' | 6 => '6' | 7 => '7' | 8 => '8' | _ => '9'

/-- Decimal digits of a natural number, most significant first; the first
argument is fuel (any amount above the number itself is enough). -/
def natDigitsAux : Nat → Nat → List Char
  | 0, _ => []
  | fuel + 1, n =>
    if n < 10 then [digitChar n]
    else natDigitsAux fuel (n / 10) ++ [digitChar (n % 10)]

/-- Decimal rendering of a natural number. -/
def natDigits (n : Nat) : List Char := natDigitsAux (n + 1) n

/-- Python `str(n)` / f-string rendering of an `int`. -/
def intChars (n : Int) : Str :=
  if n < 0 then '-' :: natDigits n.natAbs else natDigits n.natAbs

/-- Python `str.split(":")`: splits on every colon, keeping empty pieces
(`"".split(":") == [""]`). -/
def splitColon : List Char → List (List Char)
  | [] => [[]]
  | c :: rest =>
    if c = ':' then [] :: splitColon rest
    else (c :: (splitColon rest).headD []) :: (splitColon rest).tail

end CompressPhotoFast

namespace CompressPhotoFast

/-! ### Marker protocol — `src/exif_handler.py`

A file's EXIF user-comment tag is modelled as `Option Str`: `none` stands
for every case `ExifHandler.read_exif_data` maps to "no usable metadata"
(missing EXIF block, missing tag, `piexif.load` failing), `some uc` for a
tag that decodes to the string `uc`.  The magic `EXIF_COMPRESSION_MARKER`
comes from the absent `constants.py` and stays a parameter. -/

/-- Marker string `f"{EXIF_COMPRESSION_MARKER}:{quality}:{timestamp}"` as
built by `ExifHandler.add_compression_marker`. -/
def serialize_marker (magic : Str) (quality timestamp : Int) : Str :=
  magic ++ ':' :: (intChars quality ++ ':' :: intChars timestamp)

/-- `ExifHandler.get_compression_info`, applied to the user-comment tag:
requires the magic prefix, at least three colon-separated parts, and
integer quality/timestamp fields; otherwise `(False, -1, 0)`. -/
def get_compression_info (magic : Str) (userComment : Option Str) :
    Bool × Int × Int :=
  match userComment with
  | none => (false, -1, 0)
  | some uc =>
    if magic.isPrefixOf uc then
      let parts := splitColon uc
      if 3 ≤ parts.length then
        match pyIntParse (parts.getD 1 []), pyIntParse (parts.getD 2 []) with
        | some q, some t => (true, q, t)
        | _, _ => (false, -1, 0)
      else (false, -1, 0)
    else (false, -1, 0)

/-- `ExifHandler.is_image_compressed`. -/
def is_image_compressed (magic : Str) (userComment : Option Str) : Bool :=
  (get_compression_info magic userComment).1

/-- `ExifHandler.should_recompress` (exif_handler.py lines 111-116): returns
`False` for any marked file and `True` otherwise; the marker timestamp, the
file's mtime and `TIME_DIFFERENCE_ALLOWED_SECONDS` (imported by the module
but never used) play no part. -/
def should_recompress (magic : Str) (userComment : Option Str) : Bool :=
  let info := get_compression_info magic userComment
  if info.1 = true then false else true

/-- Syntactic validity of a user-comment string as a marker, following the
parser's three requirements (magic prefix, three fields, integer fields). -/
def marker_wellformed (magic : Str) (uc : Str) : Bool :=
  magic.isPrefixOf uc
    && decide (3 ≤ (splitColon uc).length)
    && (pyIntParse ((splitColon uc).getD 1 [])).isSome
    && (pyIntParse ((splitColon uc).getD 2 [])).isSome

/-- Stand-in value for `EXIF_COMPRESSION_MARKER` (the real value lives in
the absent `constants.py`); used only to instantiate parametric results on
concrete inputs. -/
def markerMagic : Str := "COMPRESSPHOTOFAST".data

/-! ### Efficiency gate — `src/compression.py`

`MIN_COMPRESSION_SAVING_PERCENT` and `MIN_BYTES_SAVING` live in the absent
`constants.py`, so they are arguments.  Python computes the percentage with
float division; the embedding uses exact rationals. -/

/-- `ImageCompressor.is_compression_efficient`. -/
def is_compression_efficient (minSavingPercent minBytesSaving : ℚ)
    (original_size compressed_size : Int) : Bool :=
  if original_size ≤ 0 then false
  else
    let size_reduction_percent : ℚ :=
      ((original_size : ℚ) - (compressed_size : ℚ)) / (original_size : ℚ) * 100
    let bytes_saving : Int := original_size - compressed_size
    decide (minSavingPercent ≤ size_reduction_percent)
      && decide (minBytesSaving ≤ (bytes_saving : ℚ))

end CompressPhotoFast

namespace CompressPhotoFast

/-! ### Filesystem and library-oracle model

Files are abstract byte blobs with a size; the filesystem maps paths to
files.  Everything the pipeline delegates to PIL/piexif, plus the values
from the absent `constants.py`, lives in a `CompressEnv` oracle: a field of
type `Except Str _` set to `.error msg` means that library call raises an
exception whose text is `msg`. -/

/-- A file's bytes: an abstract blob identity plus the byte size
`os.path.getsize` reports.  Two files are byte-for-byte equal iff their
`Content`s are equal. -/
structure Content where
  blob : Nat
  size : Nat
deriving DecidableEq

/-- A parsed EXIF dictionary (abstract token). -/
abbrev ExifData := Nat

/-- The filesystem: which file, if any, each path holds. -/
abbrev FS := Str → Option Content

/-- Writing a file (creating or overwriting). -/
def fsWrite (fs : FS) (p : Str) (c : Content) : FS :=
  fun q => if q = p then some c else fs q

/-- `os.remove`. -/
def fsRemove (fs : FS) (p : Str) : FS :=
  fun q => if q = p then none else fs q

/-- `shutil.move(src, dst)`: `dst` takes `src`'s bytes and `src` disappears;
a missing `src` raises, which the one caller suppresses, leaving the
filesystem unchanged. -/
def moveFile (fs : FS) (src dst : Str) : FS :=
  match fs src with
  | none => fs
  | some c => fun q => if q = src then none else if q = dst then some c else fs q

/-- `ImageCompressor.get_file_size`: 0 when `os.path.getsize` raises
`OSError` (missing file). -/
def get_file_size (fs : FS) (p : Str) : Nat :=
  match fs p with
  | some c => c.size
  | none => 0

/-- Python `str.lower()` (ASCII, as the source applies it to extensions). -/
def pyLower (s : Str) : Str := s.map Char.toLower

/-- Python `str.upper()` (ASCII, as the source applies it to formats). -/
def pyUpper (s : Str) : Str := s.map Char.toUpper

/-- `os.path.basename` (POSIX): the part after the last `'/'`. -/
def basenameOf (p : Str) : Str := (p.reverse.takeWhile (fun c => c != '/')).reverse

/-- `os.path.splitext` on a basename: the extension starts at the last dot,
unless every character before that dot is itself a dot. -/
def splitextBase (b : Str) : Str × Str :=
  match b.reverse.findIdx? (fun c => c == '.') with
  | none => (b, [])
  | some i =>
    let cut := b.length - (i + 1)
    if (b.take cut).all (fun c => c == '.') then (b, [])
    else (b.take cut, b.drop cut)

/-- `os.path.splitext(path)[1]`. -/
def pathExt (p : Str) : Str := (splitextBase (basenameOf p)).2

/-- `os.path.dirname` for relative paths of the `dir/name` shape the
source builds (the root-path corner cases are not needed here). -/
def dirnameOf (p : Str) : Str := p.take (p.length - (basenameOf p).length - 1)

/-- `os.path.join` for the shapes the source uses: a directory joined with
a plain (non-absolute) file name. -/
def pathJoin (d f : Str) : Str :=
  if d.length = 0 then f
  else if d.getLast? = some '/' then d ++ f else d ++ '/' :: f

/-- Membership in the literal set `{".heic", ".heif"}`. -/
def isHeicExt (ext : Str) : Bool :=
  decide (ext = ".heic".data ∨ ext = ".heif".data)

/-- Python's `needle in haystack` substring test. -/
def strContains (hay needle : Str) : Bool :=
  (List.range (hay.length + 1)).any (fun i => needle.isPrefixOf (hay.drop i))

/-- `CompressionResult` (compression.py); `metadata_details` is the
oracle's abstract token for the validation dictionary. -/
structure CompressionResult where
  success : Bool
  original_size : Int := 0
  compressed_size : Int := 0
  saved_path : Option Str := none
  message : Str := []
  metadata_preserved : Bool := true
  metadata_details : Option Nat := none
deriving DecidableEq

/-- Oracle for the external libraries and the absent `constants.py`. -/
structure CompressEnv where
  /-- `HEIC_SUPPORT_AVAILABLE` (whether `pillow_heif` imported). -/
  heicSupport : Bool
  /-- `SUPPORTED_EXTENSIONS`. -/
  supportedExts : List Str
  /-- `MIN_PROCESSABLE_FILE_SIZE`. -/
  minProcessable : Nat
  /-- `MIN_COMPRESSION_SAVING_PERCENT`. -/
  minSavingPercent : ℚ
  /-- `MIN_BYTES_SAVING`. -/
  minBytesSaving : ℚ
  /-- `Image.open(file_path)` and the `.format` it reports (`none` = PIL
  reports no format, and the source falls back to `"JPEG"`). -/
  openFmt : Except Str (Option Str)
  /-- `piexif.load` applied to a file's bytes; `none` models every parse
  failure `ExifHandler.read_exif_data` catches. -/
  exifOf : Content → Option ExifData
  /-- `piexif.dump(source_exif)` succeeds. -/
  dumpOk : Bool
  /-- `img_copy.save(output_path, ...)`: the bytes written, or the raised
  exception's text. -/
  saveOut : Except Str Content
  /-- `add_compression_marker`'s `piexif.dump`/`piexif.insert` chain
  succeeds. -/
  markerOk : Bool
  /-- A file's bytes after `piexif.insert` of a marker built with the given
  quality and preserved source metadata. -/
  stamp : Content → Int → Option ExifData → Content
  /-- `validate_exif_preservation` raises (the caller catches). -/
  validateRaises : Bool
  /-- Some critical tag present in the source is missing in the target. -/
  lostCritical : Bool
  /-- The validation details dictionary (abstract token). -/
  metadataDetails : Option Nat
  /-- `shutil.copy2(file_path, backup_path)` succeeds. -/
  backupOk : Bool
  /-- Exception text when the backup copy fails. -/
  backupErr : Str

/-- `ExifHandler.read_exif_data`: `None` when the file is missing or piexif
cannot parse it (all exceptions are caught inside the source function). -/
def read_exif_data (env : CompressEnv) (fs : FS) (p : Str) : Option ExifData :=
  match fs p with
  | none => none
  | some c => env.exifOf c

/-- `ExifHandler.add_compression_marker` as a filesystem transform: on
success the file's bytes become the stamped content; every failure path
(missing file, `piexif.dump`/`insert` raising) is caught inside the source
and leaves the file unchanged. -/
def add_compression_marker (env : CompressEnv) (fs : FS) (p : Str)
    (quality : Int) (srcExif : Option ExifData) : FS :=
  if env.markerOk then
    match fs p with
    | some c => fsWrite fs p (env.stamp c quality srcExif)
    | none => fs
  else fs

/-- `ImageCompressor.is_supported_file`. -/
def is_supported_file (env : CompressEnv) (p : Str) : Bool :=
  let ext := pyLower (pathExt p)
  if isHeicExt ext && !env.heicSupport then false
  else decide (ext ∈ env.supportedExts)

/-- Body of `ImageCompressor.compress_image` inside its enclosing
`try`/`except`: `.error (msg, fs)` is an exception escaping to that handler
with the filesystem as mutated so far.  The two raise sites are
`Image.open` and `img_copy.save`; every other library call the body makes
is wrapped in its own handler in the source. -/
def compress_image_body (env : CompressEnv) (fs : FS) (file_path : Str)
    (quality : Int) (output_path? : Option Str) (preserve_exif : Bool) :
    Except (Str × FS) (FS × CompressionResult) :=
  if is_supported_file env file_path = false then
    if isHeicExt (pyLower (pathExt file_path)) && !env.heicSupport then
      .ok (fs, { success := false,
                 message := "HEIC/HEIF support not available. Install pillow-heif.".data })
    else
      .ok (fs, { success := false, message := "Unsupported file format".data })
  else if get_file_size fs file_path < env.minProcessable then
    .ok (fs, { success := false, message := "File too small for compression".data })
  else
    let original_size : Int := get_file_size fs file_path
    match env.openFmt with
    | .error e => .error (e, fs)
    | .ok fmtReported =>
      let fmt0 := pyUpper (fmtReported.getD "JPEG".data)
      let fmt := if fmt0 = "HEIC".data ∨ fmt0 = "HEIF".data then "JPEG".data else fmt0
      let output_path := output_path?.getD file_path
      let source_exif := if preserve_exif then read_exif_data env fs file_path else none
      match env.saveOut with
      | .error e => .error (e, fs)
      | .ok written =>
        let fs1 := fsWrite fs output_path written
        let compressed_size : Int := get_file_size fs1 output_path
        if is_compression_efficient env.minSavingPercent env.minBytesSaving
            original_size compressed_size = false then
          let fs2 := if output_path ≠ file_path then fsRemove fs1 output_path else fs1
          let fs3 := add_compression_marker env fs2 file_path 99 source_exif
          if fmt = "PNG".data then
            .ok (fs3, { success := true, original_size := original_size,
                        compressed_size := compressed_size,
                        message := "Compression not efficient (marker added to original)".data,
                        metadata_preserved := false })
          else
            .ok (fs3, { success := true, original_size := original_size,
                        compressed_size := compressed_size,
                        message := "Compression not efficient (marker added with metadata)".data,
                        metadata_preserved := source_exif.isSome })
        else
          let presDet : Bool × Option Nat :=
            if preserve_exif ∧ fmt = "JPEG".data then
              if source_exif.isSome then
                if env.validateRaises then (true, none)
                else (!env.lostCritical, env.metadataDetails)
              else (true, none)
            else if fmt = "PNG".data then (false, none)
            else (true, none)
          .ok (fs1, { success := true, original_size := original_size,
                      compressed_size := compressed_size,
                      saved_path := some output_path,
                      message := if presDet.1 then "Compressed successfully".data
                                 else "Compressed with metadata loss".data,
                      metadata_preserved := presDet.1,
                      metadata_details := presDet.2 })

/-- `ImageCompressor.compress_image`: the body's exceptions are caught and
converted to a failure outcome with message `f"Error: {e}"`. -/
def compress_image (env : CompressEnv) (fs : FS) (file_path : Str)
    (quality : Int) (output_path? : Option Str) (preserve_exif : Bool) :
    FS × CompressionResult :=
  match compress_image_body env fs file_path quality output_path? preserve_exif with
  | .ok r => r
  | .error (e, fs') => (fs', { success := false, message := "Error: ".data ++ e })

/-- Copy-mode base name of the input (basename without extension). -/
def copyName (file_path : Str) : Str := (splitextBase (basenameOf file_path)).1

/-- Copy-mode output extension: HEIC/HEIF inputs switch to `".jpg"`. -/
def copyExt (file_path : Str) : Str :=
  let ext := (splitextBase (basenameOf file_path)).2
  if isHeicExt (pyLower ext) then ".jpg".data else ext

/-- The `k`-th output name the copy branch tries: `name_compressed.ext`,
then `name_compressed_1.ext`, `name_compressed_2.ext`, ...  The numbered
names re-apply the HEIC extension switch exactly as the loop body does (a
no-op, since `ext` was already switched before the loop). -/
def candidateName (output_dir name ext : Str) : Nat → Str
  | 0 => pathJoin output_dir (name ++ "_compressed".data ++ ext)
  | k + 1 =>
    let file_ext := if isHeicExt (pyLower ext) then ".jpg".data else ext
    pathJoin output_dir (name ++ "_compressed_".data ++ natDigits (k + 1) ++ file_ext)

/-- The `for attempt in range(max_attempts)` search: while the current
candidate exists, move to the next numbered name. -/
def nameSearch (fs : FS) (output_dir name ext : Str) :
    Nat → Str → Nat → Str
  | 0, cur, _ => cur
  | fuel + 1, cur, counter =>
    if (fs cur).isSome then
      nameSearch fs output_dir name ext fuel
        (candidateName output_dir name ext counter) (counter + 1)
    else cur

/-- `ImageCompressor.compress_image_safe`.  Replace mode: back up, compress
over the original, restore or clean up.  Copy mode: derive a collision-free
output name (bounded at 100 attempts) and compress to it.
`ExifHandler.preserve_file_dates` only touches timestamps, which the
filesystem model does not track, so it contributes nothing here (in the
replace-mode success path the source even calls it on the just-deleted
backup, where it fails and returns `False`). -/
def compress_image_safe (env : CompressEnv) (fs : FS) (file_path : Str)
    (quality : Int) (replace_mode : Bool) (output_dir? : Option Str) :
    FS × CompressionResult :=
  let original_size : Int := get_file_size fs file_path
  if replace_mode then
    let backup_path := file_path ++ ".bak".data
    match fs file_path with
    | none =>
      (fs, { success := false, original_size := original_size,
             message := "Failed to create backup: ".data ++ env.backupErr })
    | some orig =>
      if env.backupOk = false then
        (fs, { success := false, original_size := original_size,
               message := "Failed to create backup: ".data ++ env.backupErr })
      else
        let fs1 := fsWrite fs backup_path orig
        let step := compress_image env fs1 file_path quality (some file_path) true
        if step.2.success = false ∨ step.2.saved_path = none then
          let fs3 := moveFile step.1 backup_path file_path
          let fs4 :=
            if step.2.success && strContains (pyLower step.2.message) "not efficient".data then
              add_compression_marker env fs3 file_path 99
                (read_exif_data env fs3 backup_path)
            else fs3
          (fs4, step.2)
        else
          (fsRemove step.1 backup_path, step.2)
  else
    let output_dir :=
      output_dir?.getD (pathJoin (dirnameOf file_path) "CompressPhotoFast".data)
    -- os.makedirs(output_dir, exist_ok=True): directories are not modelled
    let name := copyName file_path
    let ext := copyExt file_path
    let output_path :=
      nameSearch fs output_dir name ext 100 (candidateName output_dir name ext 0) 1
    if (fs output_path).isSome then
      (fs, { success := false, original_size := original_size,
             message := "Failed to generate unique filename after 100 attempts".data })
    else
      compress_image env fs file_path quality (some output_path) true

/-- `FileInfo` (file_utils.py), the fields the worker reads. -/
structure FileInfo where
  path : Str
  name : Str
  size : Nat
  mtime : Int
deriving DecidableEq

/-- `is_already_small` (file_utils.py): `size < OPTIMUM_FILE_SIZE`, the
constant again being a parameter. -/
def is_already_small (optimumFileSize size : Nat) : Bool :=
  decide (size < optimumFileSize)

/-- Worker-level oracle: the processed file's user-comment tag (for the
marker checks), `OPTIMUM_FILE_SIZE`, and the exception injections that the
worker's `try`/`except` blocks guard.  `safeRaises` models an exception
propagating out of `compress_image_safe` (its copy-mode `os.makedirs` call
is the one statement no handler inside it guards). -/
structure WorkerEnv where
  ce : CompressEnv
  magic : Str
  userComment : Option Str
  optimumFileSize : Nat
  /-- Exception in the marker/size check block (caught; noted in the skip
  reason; processing continues). -/
  checkRaises : Option Str
  /-- Exception in `find_optimal_quality` (caught; quality falls back to
  75). -/
  optimalRaises : Option Str
  /-- `find_optimal_quality`'s answer when it does not raise. -/
  optimalQuality : Int
  /-- Exception escaping `compress_image_safe`. -/
  safeRaises : Option Str
  /-- Exception anywhere else in the worker body (outer catch-all). -/
  workerRaises : Option Str
  /-- `format_exc()` text appended to worker-level error messages. -/
  tb : Str

/-- Result tuple of `process_single_file`:
`(file_info, result, skipped, skip_reason, error_message)`. -/
abbrev WorkerResult := FileInfo × Option CompressionResult × Bool × Str × Str

/-- `process_single_file` (multiprocessing_utils.py): marker/size gating
under `force`, optional auto quality, `compress_image_safe`, and the two
`try`/`except` layers that convert faults into returned error records
(messages `f"Compression error: {type}: {msg}"` and
`f"Worker error: {type}: {msg}\n{format_exc()}"`, the `type: msg` part
being the oracle's exception text). -/
def process_single_file (env : WorkerEnv) (fs : FS) (file_info : FileInfo)
    (quality : Int) (replace : Bool) (output_dir? : Option Str) (force : Bool) :
    FS × WorkerResult :=
  match env.workerRaises with
  | some e =>
    (fs, (file_info, none, false, [], "Worker error: ".data ++ e ++ '\n' :: env.tb))
  | none =>
    let check : Bool × Str :=
      if force = false then
        match env.checkRaises with
        | some e => (true, "Check error: ".data ++ e)
        | none =>
          if is_image_compressed env.magic env.userComment
              && !(should_recompress env.magic env.userComment) then
            (false, "Already compressed".data)
          else if is_already_small env.optimumFileSize file_info.size then
            (false, "Already small".data)
          else (true, [])
      else (true, [])
    if check.1 then
      let actual_quality :=
        if quality = 0 then
          match env.optimalRaises with
          | some _ => 75
          | none => env.optimalQuality
        else quality
      match env.safeRaises with
      | some e =>
        (fs, (file_info, none, false, [], "Compression error: ".data ++ e))
      | none =>
        let step :=
          compress_image_safe env.ce fs file_info.path actual_quality replace output_dir?
        (step.1, (file_info, some step.2, false, [], []))
    else
      (fs, (file_info, none, true, check.2, []))

/-- `CompressionStats` (stats.py): the counters `add_result` touches. -/
structure CompressionStats where
  total : Nat := 0
  processed : Nat := 0
  skipped : Nat := 0
  success : Nat := 0
  failed : Nat := 0
  original_size_total : Int := 0
  compressed_size_total : Int := 0
  skipped_reasons : List (Str × Nat) := []
deriving DecidableEq

/-- `self.skipped_reasons[reason] = self.skipped_reasons.get(reason, 0) + 1`. -/
def bumpReason : List (Str × Nat) → Str → List (Str × Nat)
  | [], r => [(r, 1)]
  | (k, v) :: rest, r =>
    if k = r then (k, v + 1) :: rest else (k, v) :: bumpReason rest r

/-- `CompressionStats.add_result`. -/
def add_result (s : CompressionStats) (result : CompressionResult)
    (skipped : Bool) (reason : Str) : CompressionStats :=
  let s1 := { s with processed := s.processed + 1 }
  if skipped then
    { s1 with skipped := s1.skipped + 1,
              skipped_reasons :=
                if reason.length ≠ 0 then bumpReason s1.skipped_reasons reason
                else s1.skipped_reasons }
  else if result.success then
    { s1 with success := s1.success + 1,
              original_size_total := s1.original_size_total + result.original_size,
              compressed_size_total := s1.compressed_size_total + result.compressed_size }
  else
    { s1 with failed := s1.failed + 1 }

/-- A fresh `CompressionStats()` as `__init__` builds it. -/
def newStats : CompressionStats := {}

/-- A sequence of `add_result` calls folded over a starting state. -/
def runStats (calls : List (CompressionResult × Bool × Str))
    (s : CompressionStats) : CompressionStats :=
  calls.foldl (fun acc c => add_result acc c.1 c.2.1 c.2.2) s

/-! ### Concrete oracles and filesystems for the closed instances -/

/-- Concrete oracle in which every external call succeeds: JPEG input,
EXIF present, encoding produces 30,000 bytes, thresholds 10 % / 1,024
bytes. -/
def demoEnv : CompressEnv where
  heicSupport := true
  supportedExts := [".jpg".data, ".jpeg".data, ".png".data, ".heic".data, ".heif".data]
  minProcessable := 1024
  minSavingPercent := 10
  minBytesSaving := 1024
  openFmt := .ok (some "JPEG".data)
  exifOf := fun _ => some 7
  dumpOk := true
  saveOut := .ok ⟨2, 30000⟩
  markerOk := true
  stamp := fun c q _ => ⟨c.blob + 100 + q.toNat, c.size + 1⟩
  validateRaises := false
  lostCritical := false
  metadataDetails := some 1
  backupOk := true
  backupErr := "disk full".data

/-- `demoEnv` with an encode that saves only 1,000 of 100,000 bytes, below
both thresholds. -/
def ineffEnv : CompressEnv := { demoEnv with saveOut := .ok ⟨2, 99000⟩ }

/-- `demoEnv` opening a HEIC-format image. -/
def heicEnv : CompressEnv := { demoEnv with openFmt := .ok (some "HEIC".data) }

/-- A filesystem holding the single JPEG `a.jpg` (100,000 bytes). -/
def fsJpg : FS := fun p => if p = "a.jpg".data then some ⟨1, 100000⟩ else none

/-- A filesystem holding the single unsupported file `doc.txt`. -/
def fsTxt : FS := fun p => if p = "doc.txt".data then some ⟨1, 100000⟩ else none

/-- A filesystem holding the single HEIC image `photo.heic`. -/
def fsHeic : FS := fun p => if p = "photo.heic".data then some ⟨1, 100000⟩ else none

/-- A filesystem where the first two copy-mode candidate names for `a.jpg`
under `d` are already taken. -/
def fsTaken : FS := fun p =>
  if p = "d/a_compressed.jpg".data ∨ p = "d/a_compressed_1.jpg".data then some ⟨9, 9⟩
  else none

end CompressPhotoFast

namespace CompressPhotoFast

/-! ### Helper lemmas on the string primitives -/

lemma digitChar_toNat_sub (m : Nat) (h : m < 10) : (digitChar m).toNat - 48 = m := by
  interval_cases m <;> rfl

lemma pyIsDigit_digitChar (m : Nat) (h : m < 10) : pyIsDigit (digitChar m) = true := by
  interval_cases m <;> decide

lemma natDigitsAux_stable :
    ∀ f₁ f₂ n, n < f₁ → n < f₂ → natDigitsAux f₁ n = natDigitsAux f₂ n := by
  intro f₁
  induction f₁ with
  | zero => intro f₂ n h₁ _; omega
  | succ f ih =>
    intro f₂ n h₁ h₂
    cases f₂ with
    | zero => omega
    | succ g =>
      simp only [natDigitsAux]
      by_cases h : n < 10
      · simp [h]
      · simp only [h, if_false]
        have : natDigitsAux f (n / 10) = natDigitsAux g (n / 10) :=
          ih g (n / 10) (by omega) (by omega)
        rw [this]

lemma natDigits_eq (n : Nat) :
    natDigits n =
      if n < 10 then [digitChar n] else natDigits (n / 10) ++ [digitChar (n % 10)] := by
  unfold natDigits
  conv_lhs => rw [natDigitsAux]
  by_cases h : n < 10
  · simp [h]
  · simp only [h, if_false]
    rw [natDigitsAux_stable n (n / 10 + 1) (n / 10) (by omega) (by omega)]

lemma natDigits_ne_nil (n : Nat) : natDigits n ≠ [] := by
  rw [natDigits_eq]
  by_cases h : n < 10 <;> simp [h]

lemma natDigits_all_digits (n : Nat) : ∀ c ∈ natDigits n, pyIsDigit c = true := by
  induction n using Nat.strong_induction_on with
  | _ n ih =>
    rw [natDigits_eq]
    by_cases h : n < 10
    · simp only [h, if_true, List.mem_singleton]
      intro c hc; subst hc; exact pyIsDigit_digitChar n h
    · simp only [h, if_false]
      intro c hc
      rcases List.mem_append.mp hc with h₁ | h₂
      · exact ih (n / 10) (by omega) c h₁
      · rw [List.mem_singleton.mp h₂]
        exact pyIsDigit_digitChar (n % 10) (by omega)

lemma digit_ne_underscore {c : Char} (h : pyIsDigit c = true) : (c != '_') = true := by
  rw [bne_iff_ne]
  intro hc; subst hc
  simp [pyIsDigit] at h

lemma digit_not_space {c : Char} (h : pyIsDigit c = true) : pyIsSpace c = false := by
  simp only [pyIsDigit, decide_eq_true_eq] at h
  simp only [pyIsSpace, decide_eq_false_iff_not]
  omega

lemma digit_ne_minus {c : Char} (h : pyIsDigit c = true) : c ≠ '-' := by
  intro hc; subst hc; simp [pyIsDigit] at h

lemma digit_ne_plus {c : Char} (h : pyIsDigit c = true) : c ≠ '+' := by
  intro hc; subst hc; simp [pyIsDigit] at h

lemma digit_ne_colon {c : Char} (h : pyIsDigit c = true) : c ≠ ':' := by
  intro hc; subst hc; simp [pyIsDigit] at h

lemma dropWhile_eq_self_of_all {p : Char → Bool} {l : List Char}
    (h : ∀ c ∈ l, p c = false) : l.dropWhile p = l := by
  cases l with
  | nil => rfl
  | cons a t => simp [List.dropWhile_cons, h a (by simp)]

lemma pyStrip_eq_self {l : Str} (h : ∀ c ∈ l, pyIsSpace c = false) :
    pyStrip l = l := by
  unfold pyStrip
  rw [dropWhile_eq_self_of_all h,
    dropWhile_eq_self_of_all (fun c hc => h c (List.mem_reverse.mp hc)),
    List.reverse_reverse]

lemma digitsUnd_of_digits :
    ∀ l : List Char, l ≠ [] → (∀ c ∈ l, pyIsDigit c = true) → digitsUnd l = true := by
  intro l
  induction l with
  | nil => intro h; exact absurd rfl h
  | cons c t ih =>
    intro _ hall
    cases t with
    | nil => simpa [digitsUnd] using hall c (by simp)
    | cons d r =>
      have hd : pyIsDigit d = true := hall d (by simp)
      have hdu : d ≠ '_' := by
        intro hq; subst hq; simp [pyIsDigit] at hd
      simp only [digitsUnd, hdu, if_false]
      rw [hall c (by simp), ih (by simp) (fun x hx => hall x (by simp [hx]))]
      rfl

lemma digitsVal_natDigits (n : Nat) : digitsVal (natDigits n) = n := by
  have key : ∀ m : Nat, (natDigits m).foldl (fun a c => a * 10 + (c.toNat - 48)) 0 = m := by
    intro m
    induction m using Nat.strong_induction_on with
    | _ m ih =>
      rw [natDigits_eq]
      by_cases h : m < 10
      · simp [h, List.foldl, digitChar_toNat_sub m h]
      · simp only [h, if_false, List.foldl_append, ih (m / 10) (by omega), List.foldl]
        rw [digitChar_toNat_sub (m % 10) (by omega)]
        omega
  unfold digitsVal
  rw [List.filter_eq_self.mpr
    (fun c hc => digit_ne_underscore (natDigits_all_digits n c hc))]
  exact key n

lemma pyStrip_natDigits (n : Nat) : pyStrip (natDigits n) = natDigits n :=
  pyStrip_eq_self (fun c hc => digit_not_space (natDigits_all_digits n c hc))

lemma pyIntParse_intChars (n : Int) : pyIntParse (intChars n) = some n := by
  by_cases hn : n < 0
  · have hstrip : pyStrip ('-' :: natDigits n.natAbs) = '-' :: natDigits n.natAbs := by
      refine pyStrip_eq_self ?_
      intro c hc
      rcases List.mem_cons.mp hc with h | h
      · subst h; decide
      · exact digit_not_space (natDigits_all_digits _ c h)
    simp only [intChars, hn, if_true, pyIntParse, hstrip, List.length_cons,
      List.headD_cons, List.tail_cons]
    rw [if_pos (digitsUnd_of_digits _ (natDigits_ne_nil _) (natDigits_all_digits _)),
      digitsVal_natDigits]
    have hval : ((n.natAbs : Nat) : Int) = -n := by omega
    rw [hval, neg_neg, if_neg (by omega)]
  · simp only [intChars, hn, if_false, pyIntParse, pyStrip_natDigits]
    rcases hd : natDigits n.natAbs with _ | ⟨c, rest⟩
    · exact absurd hd (natDigits_ne_nil _)
    · have hcdig : pyIsDigit c = true := by
        apply natDigits_all_digits n.natAbs
        rw [hd]; simp
      simp only [List.length_cons, List.headD_cons, List.tail_cons]
      rw [if_neg (by simp), if_neg (digit_ne_minus hcdig), if_neg (digit_ne_plus hcdig)]
      have hall : ∀ x ∈ c :: rest, pyIsDigit x = true := by
        intro x hx
        apply natDigits_all_digits n.natAbs
        rw [hd]; exact hx
      rw [if_pos (digitsUnd_of_digits _ (by simp) hall)]
      have : digitsVal (c :: rest) = n.natAbs := by
        rw [← hd]; exact digitsVal_natDigits _
      rw [this]
      congr 1
      omega

lemma splitColon_ne_nil : ∀ l : List Char, splitColon l ≠ [] := by
  intro l
  cases l with
  | nil => simp [splitColon]
  | cons c rest =>
    by_cases h : c = ':' <;> simp [splitColon, h]

lemma splitColon_no_colon : ∀ l : List Char, ':' ∉ l → splitColon l = [l] := by
  intro l
  induction l with
  | nil => intro _; rfl
  | cons c rest ih =>
    intro h
    have hc : c ≠ ':' := fun hq => h (by simp [hq])
    have hrest : splitColon rest = [rest] := ih (fun hq => h (by simp [hq]))
    simp [splitColon, hc, hrest]

lemma splitColon_append (a b : List Char) (h : ':' ∉ a) :
    splitColon (a ++ ':' :: b) = a :: splitColon b := by
  induction a with
  | nil => simp [splitColon]
  | cons c a' ih =>
    have hc : c ≠ ':' := fun hq => h (by simp [hq])
    have ha' : ':' ∉ a' := fun hq => h (by simp [hq])
    show splitColon (c :: (a' ++ ':' :: b)) = (c :: a') :: splitColon b
    simp only [splitColon, if_neg hc]
    rw [ih ha']
    rfl

lemma intChars_no_colon (n : Int) : ':' ∉ intChars n := by
  intro h
  unfold intChars at h
  by_cases hn : n < 0
  · simp only [hn, if_true] at h
    rcases List.mem_cons.mp h with h | h
    · exact absurd h (by decide)
    · exact absurd rfl (digit_ne_colon (natDigits_all_digits _ _ h))
  · simp only [hn, if_false] at h
    exact absurd rfl (digit_ne_colon (natDigits_all_digits _ _ h))

lemma splitColon_serialize (magic : Str) (hm : ':' ∉ magic) (q t : Int) :
    splitColon (serialize_marker magic q t) = [magic, intChars q, intChars t] := by
  unfold serialize_marker
  rw [splitColon_append magic _ hm,
    splitColon_append (intChars q) _ (intChars_no_colon q),
    splitColon_no_colon _ (intChars_no_colon t)]

end CompressPhotoFast

namespace CompressPhotoFast

/-! ### Claims C2, C3, C4 -/

/-- C2: for every pair of integer sizes, `is_compression_efficient` is true
iff the percentage reduction `((original - compressed) / original) * 100`
is at least the minimum-saving-percent threshold and the absolute byte
reduction is at least the minimum-bytes threshold, both inclusive; stated
for any positive thresholds since the concrete constants live in the absent
`constants.py`. -/
theorem is_compression_efficient_iff (minP minB : ℚ) (o c : Int)
    (hp : 0 < minP) (hb : 0 < minB) :
    is_compression_efficient minP minB o c = true ↔
      (minP ≤ (((o : ℚ) - (c : ℚ)) / (o : ℚ)) * 100 ∧ minB ≤ (o : ℚ) - (c : ℚ)) := by
  unfold is_compression_efficient
  by_cases ho : o ≤ 0
  · rw [if_pos ho]
    simp only [Bool.false_eq_true, false_iff, not_and]
    intro h1 h2
    rcases lt_or_eq_of_le ho with hlt | heq
    · have hoq : (o : ℚ) < 0 := by exact_mod_cast hlt
      have hpos : 0 < (o : ℚ) - (c : ℚ) := lt_of_lt_of_le hb h2
      have : ((o : ℚ) - (c : ℚ)) / (o : ℚ) < 0 := div_neg_of_pos_of_neg hpos hoq
      nlinarith
    · subst heq
      simp only [Int.cast_zero, div_zero, zero_mul] at h1
      exact absurd h1 (not_le.mpr hp)
  · rw [if_neg ho]
    simp only [Bool.and_eq_true, decide_eq_true_eq]
    constructor
    · rintro ⟨h1, h2⟩
      refine ⟨h1, ?_⟩
      have : (((o - c : Int)) : ℚ) = (o : ℚ) - (c : ℚ) := by push_cast; ring
      rwa [this] at h2
    · rintro ⟨h1, h2⟩
      refine ⟨h1, ?_⟩
      have : (((o - c : Int)) : ℚ) = (o : ℚ) - (c : ℚ) := by push_cast; ring
      rwa [this]

/-- Witness for C2 at the spec's own scenario scale: a 1,000,000-byte file
compressed to 400,000 bytes against a 10 percent / 51,200 byte gate. -/
theorem is_compression_efficient_iff_witness :
    (0 : ℚ) < 10 ∧ (0 : ℚ) < 51200 ∧
      (is_compression_efficient 10 51200 1000000 400000 = true ↔
        ((10 : ℚ) ≤ ((((1000000 : Int) : ℚ) - ((400000 : Int) : ℚ)) / ((1000000 : Int) : ℚ)) * 100 ∧
          (51200 : ℚ) ≤ ((1000000 : Int) : ℚ) - ((400000 : Int) : ℚ))) :=
  ⟨by norm_num, by norm_num,
    is_compression_efficient_iff 10 51200 1000000 400000 (by norm_num) (by norm_num)⟩

/-- C3 (code behaviour at the claim's failing input): a file carrying a
well-formed marker whose timestamp is 0 ms is reported `(true, 80, 0)` by
`get_compression_info`, yet `should_recompress` returns `false` — the
implementation ignores the marker age and the drift tolerance entirely, so
a file whose mtime exceeds the marker timestamp by hours is still never
recompressed. -/
theorem should_recompress_ignores_marker_age :
    get_compression_info markerMagic (some (serialize_marker markerMagic 80 0)) =
      (true, 80, 0)
    ∧ should_recompress markerMagic (some (serialize_marker markerMagic 80 0)) = false := by
  constructor
  · decide
  · decide

/-- C4: serializing a compression marker and parsing it back yields
`(is_marked = true, quality, timestamp)` for every pair of integer fields
(for any magic free of the `':'` delimiter, which the format requires), and
every user-comment string that is not a syntactically well-formed marker
(wrong prefix, fewer than three fields, or non-integer quality/timestamp)
parses to the sentinel `(false, -1, 0)`. -/
theorem marker_roundtrip_and_malformed (magic : Str) (hm : ':' ∉ magic)
    (q t : Int) (uc : Str) (huc : marker_wellformed magic uc = false) :
    get_compression_info magic (some (serialize_marker magic q t)) = (true, q, t)
    ∧ get_compression_info magic (some uc) = (false, -1, 0) := by
  constructor
  · have hpre : magic.isPrefixOf (serialize_marker magic q t) = true := by
      rw [List.isPrefixOf_iff_prefix]
      exact ⟨_, rfl⟩
    simp only [get_compression_info, hpre, if_true, splitColon_serialize magic hm q t]
    simp only [List.length_cons, List.length_nil]
    have hg1 : [magic, intChars q, intChars t].getD 1 [] = intChars q := rfl
    have hg2 : [magic, intChars q, intChars t].getD 2 [] = intChars t := rfl
    rw [if_pos (by omega), hg1, hg2, pyIntParse_intChars, pyIntParse_intChars]
  · by_cases h1 : magic.isPrefixOf uc = true
    · by_cases h2 : 3 ≤ (splitColon uc).length
      · rcases hq : pyIntParse ((splitColon uc).getD 1 []) with _ | q'
        · simp only [get_compression_info, h1, if_true, if_pos h2, hq]
        · rcases ht : pyIntParse ((splitColon uc).getD 2 []) with _ | t'
          · simp only [get_compression_info, h1, if_true, if_pos h2, hq, ht]
          · exfalso
            have : marker_wellformed magic uc = true := by
              unfold marker_wellformed
              rw [h1, hq, ht]
              simp [h2]
            rw [this] at huc
            exact Bool.noConfusion huc
      · simp only [get_compression_info, h1, if_true, if_neg h2]
    · have h1' : magic.isPrefixOf uc = false := by
        revert h1; cases magic.isPrefixOf uc <;> simp
      simp only [get_compression_info, h1', Bool.false_eq_true, if_false]

/-- Witness for C4: the concrete marker `COMPRESSPHOTOFAST:85:1700000000000`
round-trips, and the malformed comment `hello world` parses as unmarked. -/
theorem marker_roundtrip_and_malformed_witness :
    get_compression_info markerMagic
        (some (serialize_marker markerMagic 85 1700000000000)) =
      (true, 85, 1700000000000)
    ∧ get_compression_info markerMagic (some "hello world".data) = (false, -1, 0) :=
  marker_roundtrip_and_malformed markerMagic (by decide) 85 1700000000000
    "hello world".data (by decide)

end CompressPhotoFast


namespace CompressPhotoFast

/-! ### Frame lemmas for the filesystem protocol -/

lemma ne_append_bak (p : Str) : p ++ ".bak".data ≠ p := by
  intro h
  have hlen := congrArg List.length h
  have h4 : (".bak".data).length = 4 := rfl
  simp only [List.length_append, h4] at hlen
  omega

lemma add_compression_marker_frame (env : CompressEnv) (fs : FS) (p : Str)
    (q : Int) (se : Option ExifData) (s : Str) (hs : s ≠ p) :
    add_compression_marker env fs p q se s = fs s := by
  unfold add_compression_marker
  by_cases hm : env.markerOk = true
  · rcases hfp : fs p with _ | c
    · simp [hm, hfp]
    · simp [hm, hfp, fsWrite, hs]
  · simp [hm]

lemma moveFile_frame (fs : FS) (src dst s : Str) (h1 : s ≠ src) (h2 : s ≠ dst) :
    moveFile fs src dst s = fs s := by
  unfold moveFile
  rcases hfp : fs src with _ | c
  · simp [hfp]
  · simp [hfp, h1, h2]

lemma moveFile_dst (fs : FS) (src dst : Str) (c : Content) (hsrc : fs src = some c)
    (hne : dst ≠ src) : moveFile fs src dst dst = some c := by
  unfold moveFile
  rw [hsrc]
  simp [hne]

lemma moveFile_src (fs : FS) (src dst : Str) (c : Content) (hsrc : fs src = some c) :
    moveFile fs src dst src = none := by
  unfold moveFile
  rw [hsrc]
  simp


lemma compress_image_fst_frame (env : CompressEnv) (fs : FS) (p out : Str)
    (q : Int) (pe : Bool) (s : Str) (hs1 : s ≠ out) (hs2 : s ≠ p) :
    (compress_image env fs p q (some out) pe).1 s = fs s := by
  unfold compress_image compress_image_body
  by_cases hsupp : is_supported_file env p = false
  · rw [if_pos hsupp]
    by_cases hheic : (isHeicExt (pyLower (pathExt p)) && !env.heicSupport) = true
    · rw [if_pos hheic]
    · rw [if_neg hheic]
  · rw [if_neg hsupp]
    by_cases hsmall : get_file_size fs p < env.minProcessable
    · rw [if_pos hsmall]
    · rw [if_neg hsmall]
      rcases hof : env.openFmt with e | fmtR
      · rfl
      · rcases hsv : env.saveOut with e2 | written
        · rfl
        · simp only [Option.getD_some]
          by_cases heff : is_compression_efficient env.minSavingPercent env.minBytesSaving
              (get_file_size fs p : Int)
              (get_file_size (fsWrite fs out written) out : Int) = false
          · rw [if_pos heff]
            by_cases hpng : (if pyUpper (fmtR.getD "JPEG".data) = "HEIC".data ∨
                  pyUpper (fmtR.getD "JPEG".data) = "HEIF".data then "JPEG".data
                else pyUpper (fmtR.getD "JPEG".data)) = "PNG".data
            · rw [if_pos hpng]
              show add_compression_marker env
                  (if out ≠ p then fsRemove (fsWrite fs out written) out
                   else fsWrite fs out written) p 99
                  (if pe = true then read_exif_data env fs p else none) s = fs s
              rw [add_compression_marker_frame env _ p 99 _ s hs2]
              by_cases hop : out ≠ p
              · rw [if_pos hop]; simp [fsRemove, fsWrite, hs1]
              · rw [if_neg hop]; simp [fsWrite, hs1]
            · rw [if_neg hpng]
              show add_compression_marker env
                  (if out ≠ p then fsRemove (fsWrite fs out written) out
                   else fsWrite fs out written) p 99
                  (if pe = true then read_exif_data env fs p else none) s = fs s
              rw [add_compression_marker_frame env _ p 99 _ s hs2]
              by_cases hop : out ≠ p
              · rw [if_pos hop]; simp [fsRemove, fsWrite, hs1]
              · rw [if_neg hop]; simp [fsWrite, hs1]
          · rw [if_neg heff]
            show fsWrite fs out written s = fs s
            simp [fsWrite, hs1]

end CompressPhotoFast

namespace CompressPhotoFast

lemma compress_image_safe_replace_run (env : CompressEnv) (fs : FS) (p : Str)
    (q : Int) (orig : Content) (horig : fs p = some orig) (hb : env.backupOk = true) :
    compress_image_safe env fs p q true none
      = (let C := compress_image env (fsWrite fs (p ++ ".bak".data) orig) p q (some p) true
         if C.2.success = false ∨ C.2.saved_path = none then
           (if C.2.success && strContains (pyLower C.2.message) "not efficient".data then
              add_compression_marker env (moveFile C.1 (p ++ ".bak".data) p) p 99
                (read_exif_data env (moveFile C.1 (p ++ ".bak".data) p) (p ++ ".bak".data))
            else moveFile C.1 (p ++ ".bak".data) p, C.2)
         else (fsRemove C.1 (p ++ ".bak".data), C.2)) := by
  unfold compress_image_safe
  rw [if_pos rfl]
  simp only [horig]
  rw [if_neg (by simp [hb])]

lemma compress_image_safe_replace_frame (env : CompressEnv) (fs : FS) (p : Str)
    (q : Int) (s : Str) (h1 : s ≠ p) (h2 : s ≠ p ++ ".bak".data) :
    (compress_image_safe env fs p q true none).1 s = fs s := by
  rcases horig : fs p with _ | orig
  · unfold compress_image_safe
    rw [if_pos rfl]
    simp only [horig]
  · by_cases hb : env.backupOk = true
    · rw [compress_image_safe_replace_run env fs p q orig horig hb]
      simp only []
      set C := compress_image env (fsWrite fs (p ++ ".bak".data) orig) p q (some p) true
        with hC
      have hcfs : C.1 s = fs s := by
        rw [hC, compress_image_fst_frame env _ p p q true s h1 h1]
        simp [fsWrite, h2]
      by_cases hcond : C.2.success = false ∨ C.2.saved_path = none
      · rw [if_pos hcond]
        by_cases hg : (C.2.success
            && strContains (pyLower C.2.message) "not efficient".data) = true
        · rw [if_pos hg]
          show add_compression_marker env (moveFile C.1 (p ++ ".bak".data) p) p 99 _ s
              = fs s
          rw [add_compression_marker_frame env _ p 99 _ s h1,
            moveFile_frame _ _ _ s h2 h1, hcfs]
        · rw [if_neg hg]
          show moveFile C.1 (p ++ ".bak".data) p s = fs s
          rw [moveFile_frame _ _ _ s h2 h1, hcfs]
      · rw [if_neg hcond]
        show fsRemove C.1 (p ++ ".bak".data) s = fs s
        simp only [fsRemove]
        rw [if_neg h2, hcfs]
    · have hb' : env.backupOk = false := by
        revert hb; cases env.backupOk <;> simp
      unfold compress_image_safe
      rw [if_pos rfl]
      simp only [horig]
      rw [if_pos hb']

end CompressPhotoFast

namespace CompressPhotoFast

/-! ### Claims C1 and C5 -/

/-- C1: in replace mode, when the backup copy fails the operation returns a
failure outcome with the filesystem untouched; and whenever the returned
outcome is unsuccessful after the backup was created, the original path
holds its pre-run bytes again and no `.bak` sibling remains. -/
theorem replace_mode_backup_safety (env : CompressEnv) (fs : FS) (p : Str)
    (q : Int) (orig : Content) (horig : fs p = some orig) :
    (env.backupOk = false →
      compress_image_safe env fs p q true none
        = (fs, { success := false, original_size := (orig.size : Int),
                 message := "Failed to create backup: ".data ++ env.backupErr }))
    ∧ (env.backupOk = true →
        (compress_image_safe env fs p q true none).2.success = false →
        (compress_image_safe env fs p q true none).1 p = some orig
        ∧ (compress_image_safe env fs p q true none).1 (p ++ ".bak".data) = none) := by
  constructor
  · intro hb
    unfold compress_image_safe
    rw [if_pos rfl]
    simp only [horig]
    rw [if_pos hb]
    have hsz : get_file_size fs p = orig.size := by simp [get_file_size, horig]
    rw [hsz]
  · intro hb hfail
    rw [compress_image_safe_replace_run env fs p q orig horig hb] at hfail ⊢
    simp only [] at hfail ⊢
    set C := compress_image env (fsWrite fs (p ++ ".bak".data) orig) p q (some p) true
      with hC
    have hbak : C.1 (p ++ ".bak".data) = some orig := by
      rw [hC, compress_image_fst_frame env _ p p q true _ (ne_append_bak p) (ne_append_bak p)]
      simp [fsWrite]
    by_cases hcond : C.2.success = false ∨ C.2.saved_path = none
    · rw [if_pos hcond] at hfail ⊢
      have hsucc : C.2.success = false := hfail
      rw [if_neg (by simp [hsucc])]
      constructor
      · exact moveFile_dst C.1 _ p orig hbak (fun h => ne_append_bak p h.symm)
      · exact moveFile_src C.1 _ p orig hbak
    · rw [if_neg hcond] at hfail
      exact absurd (Or.inl hfail) hcond

/-- Witness for C1: an unsupported file in replace mode fails compression
after the backup is created; its bytes are restored and the backup is
removed. -/
theorem replace_mode_backup_safety_witness :
    (compress_image_safe demoEnv fsTxt "doc.txt".data 80 true none).1 "doc.txt".data
        = some ⟨1, 100000⟩
    ∧ (compress_image_safe demoEnv fsTxt "doc.txt".data 80 true none).1
        ("doc.txt".data ++ ".bak".data) = none :=
  (replace_mode_backup_safety demoEnv fsTxt "doc.txt".data 80 ⟨1, 100000⟩
    (by decide)).2 (by decide) (by with_unfolding_all rfl)

/-- C5 (code behaviour at the claim's failing input): a replace-mode run
mutates the target file, and the only paths the whole run touches are the
file and its `.bak` sibling — in particular the `<path>.lock` file that
`FileLock` would create is never created, because `compress_image_safe`
performs no locking at all. -/
theorem replace_mode_mutates_without_lock :
    (compress_image_safe demoEnv fsJpg "a.jpg".data 80 true none).2.success = true
    ∧ (compress_image_safe demoEnv fsJpg "a.jpg".data 80 true none).1 "a.jpg".data
        = some ⟨2, 30000⟩
    ∧ fsJpg "a.jpg".data = some ⟨1, 100000⟩
    ∧ fsJpg "a.jpg.lock".data = none
    ∧ (compress_image_safe demoEnv fsJpg "a.jpg".data 80 true none).1 "a.jpg.lock".data
        = none
    ∧ (∀ s : Str, s ≠ "a.jpg".data → s ≠ "a.jpg.bak".data →
        (compress_image_safe demoEnv fsJpg "a.jpg".data 80 true none).1 s = fsJpg s) := by
  refine ⟨by with_unfolding_all rfl, by with_unfolding_all rfl,
    by decide, by decide, by with_unfolding_all rfl, ?_⟩
  intro s h1 h2
  have hb : "a.jpg".data ++ ".bak".data = "a.jpg.bak".data := by decide
  exact compress_image_safe_replace_frame demoEnv fsJpg "a.jpg".data 80 s h1
    (by rw [hb]; exact h2)

end CompressPhotoFast

namespace CompressPhotoFast

/-! ### Lemmas on copy-mode name generation -/

lemma nameSearch_finds (fs : FS) (dir nm ex : Str) :
    ∀ fuel j n, j ≤ n → n - j ≤ fuel →
      (∀ k, j ≤ k → k < n → (fs (candidateName dir nm ex k)).isSome = true) →
      fs (candidateName dir nm ex n) = none →
      nameSearch fs dir nm ex fuel (candidateName dir nm ex j) (j + 1)
        = candidateName dir nm ex n := by
  intro fuel
  induction fuel with
  | zero =>
    intro j n h1 h2 _ _
    have hj : j = n := by omega
    subst hj
    rfl
  | succ f ih =>
    intro j n h1 h2 hocc hfree
    by_cases hjn : j = n
    · subst hjn
      simp only [nameSearch, hfree]
      rfl
    · have hj : j < n := by omega
      simp only [nameSearch, hocc j le_rfl hj, if_pos]
      exact ih (j + 1) n (by omega) (by omega)
        (fun k hk1 hk2 => hocc k (by omega) hk2) hfree

lemma nameSearch_exhaust (fs : FS) (dir nm ex : Str) :
    ∀ fuel j,
      (∀ k, j ≤ k → k < j + fuel → (fs (candidateName dir nm ex k)).isSome = true) →
      nameSearch fs dir nm ex fuel (candidateName dir nm ex j) (j + 1)
        = candidateName dir nm ex (j + fuel) := by
  intro fuel
  induction fuel with
  | zero => intro j _; rfl
  | succ f ih =>
    intro j hocc
    simp only [nameSearch, hocc j le_rfl (by omega), if_pos]
    have hrec := ih (j + 1) (fun k hk1 hk2 => hocc k (by omega) (by omega))
    rw [hrec]
    congr 1
    omega

lemma nameSearch_mem (fs : FS) (dir nm ex : Str) :
    ∀ fuel j, ∃ m, j ≤ m ∧ m ≤ j + fuel ∧
      nameSearch fs dir nm ex fuel (candidateName dir nm ex j) (j + 1)
        = candidateName dir nm ex m := by
  intro fuel
  induction fuel with
  | zero => intro j; exact ⟨j, le_rfl, by omega, rfl⟩
  | succ f ih =>
    intro j
    by_cases h : (fs (candidateName dir nm ex j)).isSome = true
    · simp only [nameSearch, h, if_pos]
      obtain ⟨m, h1, h2, h3⟩ := ih (j + 1)
      exact ⟨m, by omega, by omega, h3⟩
    · have h' : (fs (candidateName dir nm ex j)).isSome = false := by
        revert h; cases (fs (candidateName dir nm ex j)).isSome <;> simp
      simp only [nameSearch, h', Bool.false_eq_true, if_false]
      exact ⟨j, le_rfl, by omega, rfl⟩

lemma pathJoin_append (d x y : Str) : pathJoin d (x ++ y) = pathJoin d x ++ y := by
  unfold pathJoin
  by_cases h0 : d.length = 0
  · rw [if_pos h0, if_pos h0]
  · rw [if_neg h0, if_neg h0]
    by_cases hl : d.getLast? = some '/'
    · rw [if_pos hl, if_pos hl, List.append_assoc]
    · rw [if_neg hl, if_neg hl]
      simp [List.append_assoc]

lemma candidateName_ext_suffix (dir nm : Str) (k : Nat) :
    ∃ stem, candidateName dir nm ".jpg".data k = stem ++ ".jpg".data := by
  cases k with
  | zero =>
    exact ⟨pathJoin dir (nm ++ "_compressed".data),
      pathJoin_append dir (nm ++ "_compressed".data) ".jpg".data⟩
  | succ k' =>
    refine ⟨pathJoin dir (nm ++ "_compressed_".data ++ natDigits (k' + 1)), ?_⟩
    have hni : isHeicExt (pyLower ".jpg".data) = false := by decide
    simp only [candidateName, hni, Bool.false_eq_true, if_false]
    exact pathJoin_append dir (nm ++ "_compressed_".data ++ natDigits (k' + 1)) ".jpg".data

lemma compress_image_saved_path (env : CompressEnv) (fs : FS) (p out : Str)
    (q : Int) (pe : Bool) :
    (compress_image env fs p q (some out) pe).2.saved_path = none
    ∨ (compress_image env fs p q (some out) pe).2.saved_path = some out := by
  unfold compress_image compress_image_body
  by_cases hsupp : is_supported_file env p = false
  · rw [if_pos hsupp]
    by_cases hheic : (isHeicExt (pyLower (pathExt p)) && !env.heicSupport) = true
    · rw [if_pos hheic]; left; rfl
    · rw [if_neg hheic]; left; rfl
  · rw [if_neg hsupp]
    by_cases hsmall : get_file_size fs p < env.minProcessable
    · rw [if_pos hsmall]; left; rfl
    · rw [if_neg hsmall]
      rcases hof : env.openFmt with e | fmtR
      · left; rfl
      · rcases hsv : env.saveOut with e2 | written
        · left; rfl
        · simp only [Option.getD_some]
          by_cases heff : is_compression_efficient env.minSavingPercent env.minBytesSaving
              (get_file_size fs p : Int)
              (get_file_size (fsWrite fs out written) out : Int) = false
          · rw [if_pos heff]
            by_cases hpng : (if pyUpper (fmtR.getD "JPEG".data) = "HEIC".data ∨
                  pyUpper (fmtR.getD "JPEG".data) = "HEIF".data then "JPEG".data
                else pyUpper (fmtR.getD "JPEG".data)) = "PNG".data
            · rw [if_pos hpng]; left; rfl
            · rw [if_neg hpng]; left; rfl
          · rw [if_neg heff]; right; rfl

lemma compress_image_safe_replace_saved (env : CompressEnv) (fs : FS) (p : Str)
    (q : Int) (s : Str)
    (h : (compress_image_safe env fs p q true none).2.saved_path = some s) : s = p := by
  rcases horig : fs p with _ | orig
  · unfold compress_image_safe at h
    rw [if_pos rfl] at h
    simp only [horig] at h
    simp at h
  · by_cases hb : env.backupOk = true
    · rw [compress_image_safe_replace_run env fs p q orig horig hb] at h
      simp only [] at h
      have hsp := compress_image_saved_path env (fsWrite fs (p ++ ".bak".data) orig) p p q true
      by_cases hcond : (compress_image env (fsWrite fs (p ++ ".bak".data) orig) p q
          (some p) true).2.success = false
          ∨ (compress_image env (fsWrite fs (p ++ ".bak".data) orig) p q
            (some p) true).2.saved_path = none
      · rw [if_pos hcond] at h
        rcases hsp with hnone | hsome
        · rw [hnone] at h; simp at h
        · rw [hsome] at h
          exact (Option.some_inj.mp h).symm
      · rw [if_neg hcond] at h
        rcases hsp with hnone | hsome
        · rw [hnone] at h; simp at h
        · rw [hsome] at h
          exact (Option.some_inj.mp h).symm
    · have hb' : env.backupOk = false := by
        revert hb; cases env.backupOk <;> simp
      unfold compress_image_safe at h
      rw [if_pos rfl] at h
      simp only [horig] at h
      rw [if_pos hb'] at h
      simp at h

end CompressPhotoFast

namespace CompressPhotoFast

/-! ### Claims C6, C7, C8 -/

/-- C7: when the first `n` copy-mode candidate names are taken and the
`n`-th is free (`n ≤ 100`), the name search selects exactly the `(n+1)`-th
candidate, which does not exist yet (so nothing is overwritten); and when
every candidate up to the bound is taken, `compress_image_safe` returns the
distinct unique-filename failure with the filesystem unchanged. -/
theorem copy_mode_collision_free_naming (env : CompressEnv) (fs : FS)
    (p dir : Str) (q : Int) (n : Nat) (hn : n ≤ 100)
    (hocc : ∀ k, k < n →
      (fs (candidateName dir (copyName p) (copyExt p) k)).isSome = true)
    (hfree : fs (candidateName dir (copyName p) (copyExt p) n) = none) :
    nameSearch fs dir (copyName p) (copyExt p) 100
        (candidateName dir (copyName p) (copyExt p) 0) 1
      = candidateName dir (copyName p) (copyExt p) n
    ∧ fs (nameSearch fs dir (copyName p) (copyExt p) 100
        (candidateName dir (copyName p) (copyExt p) 0) 1) = none
    ∧ ∀ fs2 : FS,
        (∀ k, k ≤ 100 →
          (fs2 (candidateName dir (copyName p) (copyExt p) k)).isSome = true) →
        compress_image_safe env fs2 p q false (some dir)
          = (fs2, { success := false, original_size := (get_file_size fs2 p : Int),
                    message :=
                      "Failed to generate unique filename after 100 attempts".data }) := by
  have key := nameSearch_finds fs dir (copyName p) (copyExt p) 100 0 n
    (Nat.zero_le n) (by omega) (fun k _ hk => hocc k hk) hfree
  simp only [Nat.zero_add] at key
  refine ⟨key, by rw [key]; exact hfree, ?_⟩
  intro fs2 hall
  have key2 := nameSearch_exhaust fs2 dir (copyName p) (copyExt p) 100 0
    (fun k _ hk2 => hall k (by omega))
  simp only [Nat.zero_add] at key2
  unfold compress_image_safe
  rw [if_neg (by decide)]
  simp only [Option.getD_some]
  rw [key2, hall 100 le_rfl]
  rfl

/-- Witness for C7: with `d/a_compressed.jpg` and `d/a_compressed_1.jpg`
already present, the search for `a.jpg` picks `d/a_compressed_2.jpg`. -/
theorem copy_mode_collision_free_naming_witness :
    nameSearch fsTaken "d".data (copyName "a.jpg".data) (copyExt "a.jpg".data) 100
        (candidateName "d".data (copyName "a.jpg".data) (copyExt "a.jpg".data) 0) 1
      = candidateName "d".data (copyName "a.jpg".data) (copyExt "a.jpg".data) 2
    ∧ fsTaken (nameSearch fsTaken "d".data (copyName "a.jpg".data) (copyExt "a.jpg".data) 100
        (candidateName "d".data (copyName "a.jpg".data) (copyExt "a.jpg".data) 0) 1) = none
    ∧ ∀ fs2 : FS,
        (∀ k, k ≤ 100 →
          (fs2 (candidateName "d".data (copyName "a.jpg".data) (copyExt "a.jpg".data) k)).isSome
            = true) →
        compress_image_safe demoEnv fs2 "a.jpg".data 80 false (some "d".data)
          = (fs2, { success := false,
                    original_size := (get_file_size fs2 "a.jpg".data : Int),
                    message :=
                      "Failed to generate unique filename after 100 attempts".data }) :=
  copy_mode_collision_free_naming demoEnv fsTaken "a.jpg".data "d".data 80 2
    (by decide) (by decide) (by decide)

/-- C8 (counterexample to the claim as stated): a HEIC image compressed in
replace mode succeeds, yet the output is written back to `photo.heic` — the
`.jpg` extension switch does not happen in place. -/
theorem heic_replace_keeps_extension :
    (compress_image_safe heicEnv fsHeic "photo.heic".data 80 true none).2.success = true
    ∧ (compress_image_safe heicEnv fsHeic "photo.heic".data 80 true none).2.saved_path
        = some "photo.heic".data
    ∧ (compress_image_safe heicEnv fsHeic "photo.heic".data 80 true none).1
        "photo.heic".data = some ⟨2, 30000⟩
    ∧ (compress_image_safe heicEnv fsHeic "photo.heic".data 80 true none).1
        "photo.jpg".data = none
    ∧ pathExt "photo.heic".data = ".heic".data :=
  ⟨by with_unfolding_all rfl, by with_unfolding_all rfl, by with_unfolding_all rfl,
   by with_unfolding_all rfl, by decide⟩

/-- C8 (amended): for every HEIC/HEIF input, copy-to-output-directory mode
derives the output extension `".jpg"` and every candidate output name ends
in `".jpg"`; in replace mode, whatever output path a run reports is the
original path itself, so the extension does not change in place. -/
theorem heic_output_extension (env : CompressEnv) (fs : FS) (p dir : Str) (q : Int)
    (hheic : isHeicExt (pyLower (splitextBase (basenameOf p)).2) = true) :
    copyExt p = ".jpg".data
    ∧ (∃ k, k ≤ 100 ∧
        nameSearch fs dir (copyName p) (copyExt p) 100
            (candidateName dir (copyName p) (copyExt p) 0) 1
          = candidateName dir (copyName p) ".jpg".data k)
    ∧ (∀ k, ∃ stem, candidateName dir (copyName p) ".jpg".data k = stem ++ ".jpg".data)
    ∧ (∀ s, (compress_image_safe env fs p q true none).2.saved_path = some s → s = p) := by
  have hext : copyExt p = ".jpg".data := by
    unfold copyExt
    rw [if_pos hheic]
  refine ⟨hext, ?_, fun k => candidateName_ext_suffix dir (copyName p) k,
    fun s hs => compress_image_safe_replace_saved env fs p q s hs⟩
  obtain ⟨m, h0, h100, hm⟩ := nameSearch_mem fs dir (copyName p) (copyExt p) 100 0
  simp only [Nat.zero_add] at hm
  refine ⟨m, by omega, ?_⟩
  rw [hm, hext]

/-- Witness for C8's amended statement at the concrete input `x.heic`. -/
theorem heic_output_extension_witness :
    copyExt "x.heic".data = ".jpg".data
    ∧ (∃ k, k ≤ 100 ∧
        nameSearch fsJpg "d".data (copyName "x.heic".data) (copyExt "x.heic".data) 100
            (candidateName "d".data (copyName "x.heic".data) (copyExt "x.heic".data) 0) 1
          = candidateName "d".data (copyName "x.heic".data) ".jpg".data k)
    ∧ (∀ k, ∃ stem,
        candidateName "d".data (copyName "x.heic".data) ".jpg".data k
          = stem ++ ".jpg".data)
    ∧ (∀ s, (compress_image_safe heicEnv fsJpg "x.heic".data 80 true none).2.saved_path
          = some s → s = "x.heic".data) :=
  heic_output_extension heicEnv fsJpg "x.heic".data "d".data 80 (by decide)

end CompressPhotoFast

namespace CompressPhotoFast

/-! ### Claims C6, C9, C10 -/

/-- C6: whenever a `compress_image` run encodes successfully but the result
is not efficient, the separate output file (if any) is deleted, the file at
the original path is stamped with a marker carrying the source's preserved
metadata, and the returned outcome is a success with no saved path and a
"not efficient" message. -/
theorem compress_image_not_efficient (env : CompressEnv) (fs : FS) (p out : Str)
    (q : Int) (orig written : Content) (fmtR : Option Str)
    (horig : fs p = some orig)
    (hsupp : is_supported_file env p = true)
    (hsize : env.minProcessable ≤ orig.size)
    (hopen : env.openFmt = .ok fmtR)
    (hsave : env.saveOut = .ok written)
    (hineff : is_compression_efficient env.minSavingPercent env.minBytesSaving
        (orig.size : Int) (written.size : Int) = false)
    (hmark : env.markerOk = true) :
    (out ≠ p → (compress_image env fs p q (some out) true).1 out = none)
    ∧ (compress_image env fs p q (some out) true).1 p
        = some (env.stamp (if out = p then written else orig) 99 (env.exifOf orig))
    ∧ (compress_image env fs p q (some out) true).2.success = true
    ∧ (compress_image env fs p q (some out) true).2.saved_path = none
    ∧ strContains (pyLower (compress_image env fs p q (some out) true).2.message)
        "not efficient".data = true := by
  have hgfs : get_file_size fs p = orig.size := by simp [get_file_size, horig]
  have hsupp' : ¬ is_supported_file env p = false := by simp [hsupp]
  have hsmall : ¬ get_file_size fs p < env.minProcessable := by rw [hgfs]; omega
  have hgout : get_file_size (fsWrite fs out written) out = written.size := by
    simp [get_file_size, fsWrite]
  have heff' : is_compression_efficient env.minSavingPercent env.minBytesSaving
      (get_file_size fs p : Int) (get_file_size (fsWrite fs out written) out : Int)
        = false := by
    rw [hgfs, hgout]; exact hineff
  have hsrc : read_exif_data env fs p = env.exifOf orig := by
    simp [read_exif_data, horig]
  have hbase : (if out ≠ p then fsRemove (fsWrite fs out written) out
      else fsWrite fs out written) p = some (if out = p then written else orig) := by
    by_cases hop : out = p
    · rw [if_neg (by simp [hop]), if_pos hop]
      subst hop
      simp [fsWrite]
    · rw [if_pos hop, if_neg hop]
      simp [fsRemove, fsWrite, hop, Ne.symm hop, horig]
  have hmarker : add_compression_marker env
      (if out ≠ p then fsRemove (fsWrite fs out written) out else fsWrite fs out written)
      p 99 (read_exif_data env fs p) p
        = some (env.stamp (if out = p then written else orig) 99 (env.exifOf orig)) := by
    unfold add_compression_marker
    rw [if_pos hmark, hbase]
    simp [fsWrite, hsrc]
  have hmarkerOut : out ≠ p → add_compression_marker env
      (if out ≠ p then fsRemove (fsWrite fs out written) out else fsWrite fs out written)
      p 99 (read_exif_data env fs p) out = none := by
    intro hop
    rw [add_compression_marker_frame env _ p 99 _ out hop, if_pos hop]
    simp [fsRemove]
  by_cases hpng : (if pyUpper (fmtR.getD "JPEG".data) = "HEIC".data ∨
        pyUpper (fmtR.getD "JPEG".data) = "HEIF".data then "JPEG".data
      else pyUpper (fmtR.getD "JPEG".data)) = "PNG".data
  · have hrun : compress_image env fs p q (some out) true
        = (add_compression_marker env
            (if out ≠ p then fsRemove (fsWrite fs out written) out
             else fsWrite fs out written) p 99 (read_exif_data env fs p),
           { success := true, original_size := (get_file_size fs p : Int),
             compressed_size := (get_file_size (fsWrite fs out written) out : Int),
             saved_path := none,
             message := "Compression not efficient (marker added to original)".data,
             metadata_preserved := false, metadata_details := none }) := by
      unfold compress_image compress_image_body
      rw [if_neg hsupp', if_neg hsmall]
      simp only [hopen, hsave, Option.getD_some]
      rw [if_pos heff', if_pos hpng]
      rfl
    refine ⟨fun hop => ?_, ?_, ?_, ?_, ?_⟩
    · rw [hrun]; exact hmarkerOut hop
    · rw [hrun]; exact hmarker
    · rw [hrun]
    · rw [hrun]
    · rw [hrun]
      show strContains
        (pyLower "Compression not efficient (marker added to original)".data)
        "not efficient".data = true
      decide
  · have hrun : compress_image env fs p q (some out) true
        = (add_compression_marker env
            (if out ≠ p then fsRemove (fsWrite fs out written) out
             else fsWrite fs out written) p 99 (read_exif_data env fs p),
           { success := true, original_size := (get_file_size fs p : Int),
             compressed_size := (get_file_size (fsWrite fs out written) out : Int),
             saved_path := none,
             message := "Compression not efficient (marker added with metadata)".data,
             metadata_preserved := (read_exif_data env fs p).isSome,
             metadata_details := none }) := by
      unfold compress_image compress_image_body
      rw [if_neg hsupp', if_neg hsmall]
      simp only [hopen, hsave, Option.getD_some]
      rw [if_pos heff', if_neg hpng]
      rfl
    refine ⟨fun hop => ?_, ?_, ?_, ?_, ?_⟩
    · rw [hrun]; exact hmarkerOut hop
    · rw [hrun]; exact hmarker
    · rw [hrun]
    · rw [hrun]
    · rw [hrun]
      show strContains
        (pyLower "Compression not efficient (marker added with metadata)".data)
        "not efficient".data = true
      decide

/-- Witness for C6: a 100,000-byte JPEG saved to the separate output
`d/b.jpg` shrinks only to 99,000 bytes (inefficient against the 10 % /
1,024-byte gate): the output is deleted, `a.jpg` gets a stamped marker
carrying its EXIF, and the outcome is a non-failing "not efficient". -/
theorem compress_image_not_efficient_witness :
    ("d/b.jpg".data ≠ "a.jpg".data →
      (compress_image ineffEnv fsJpg "a.jpg".data 80 (some "d/b.jpg".data) true).1
        "d/b.jpg".data = none)
    ∧ (compress_image ineffEnv fsJpg "a.jpg".data 80 (some "d/b.jpg".data) true).1
        "a.jpg".data
        = some (ineffEnv.stamp
            (if "d/b.jpg".data = "a.jpg".data then ⟨2, 99000⟩ else ⟨1, 100000⟩) 99
            (ineffEnv.exifOf ⟨1, 100000⟩))
    ∧ (compress_image ineffEnv fsJpg "a.jpg".data 80 (some "d/b.jpg".data) true).2.success
        = true
    ∧ (compress_image ineffEnv fsJpg "a.jpg".data 80 (some "d/b.jpg".data) true).2.saved_path
        = none
    ∧ strContains
        (pyLower (compress_image ineffEnv fsJpg "a.jpg".data 80
          (some "d/b.jpg".data) true).2.message) "not efficient".data = true :=
  compress_image_not_efficient ineffEnv fsJpg "a.jpg".data "d/b.jpg".data 80
    ⟨1, 100000⟩ ⟨2, 99000⟩ (some "JPEG".data) (by decide) (by decide) (by decide)
    rfl rfl (by with_unfolding_all rfl) rfl

/-- C9: `compress_image` converts every exception its body raises into a
returned failure outcome with an `Error:` message, and `process_single_file`
converts worker-level and compression-level faults into returned error
records — no fault crosses either boundary as an exception. -/
theorem faults_become_failure_outcomes (env : CompressEnv) (fs : FS) (p : Str)
    (q : Int) (out? : Option Str) (pe : Bool) (wenv : WorkerEnv) (wfs : FS)
    (fi : FileInfo) (wq : Int) (repl : Bool) (od? : Option Str) (force : Bool) :
    (∀ e fs', compress_image_body env fs p q out? pe = .error (e, fs') →
      compress_image env fs p q out? pe
        = (fs', { success := false, message := "Error: ".data ++ e }))
    ∧ (∀ e, wenv.workerRaises = some e →
        (process_single_file wenv wfs fi wq repl od? force).2
          = (fi, none, false, [], "Worker error: ".data ++ e ++ '\n' :: wenv.tb))
    ∧ (∀ e, wenv.workerRaises = none → wenv.safeRaises = some e →
        (process_single_file wenv wfs fi wq repl od? true).2
          = (fi, none, false, [], "Compression error: ".data ++ e)) := by
  refine ⟨?_, ?_, ?_⟩
  · intro e fs' hbody
    unfold compress_image
    rw [hbody]
  · intro e hw
    unfold process_single_file
    rw [hw]
  · intro e hw hs
    unfold process_single_file
    rw [hw]
    simp only [hs]
    rfl

/-- C10: every `add_result` call increments `processed` by one and exactly
one of `skipped`, `success`, `failed` by one; the size totals change only
on a successful, non-skipped result; hence `processed = skipped + success +
failed` in every state reachable from a fresh `CompressionStats` by any
sequence of calls. -/
theorem stats_add_result_accounting (s : CompressionStats)
    (r : CompressionResult) (sk : Bool) (rs : Str)
    (calls : List (CompressionResult × Bool × Str)) :
    (add_result s r sk rs).processed = s.processed + 1
    ∧ (sk = true →
        (add_result s r sk rs).skipped = s.skipped + 1
        ∧ (add_result s r sk rs).success = s.success
        ∧ (add_result s r sk rs).failed = s.failed
        ∧ (add_result s r sk rs).original_size_total = s.original_size_total
        ∧ (add_result s r sk rs).compressed_size_total = s.compressed_size_total)
    ∧ (sk = false → r.success = true →
        (add_result s r sk rs).success = s.success + 1
        ∧ (add_result s r sk rs).skipped = s.skipped
        ∧ (add_result s r sk rs).failed = s.failed
        ∧ (add_result s r sk rs).original_size_total
            = s.original_size_total + r.original_size
        ∧ (add_result s r sk rs).compressed_size_total
            = s.compressed_size_total + r.compressed_size)
    ∧ (sk = false → r.success = false →
        (add_result s r sk rs).failed = s.failed + 1
        ∧ (add_result s r sk rs).skipped = s.skipped
        ∧ (add_result s r sk rs).success = s.success
        ∧ (add_result s r sk rs).original_size_total = s.original_size_total
        ∧ (add_result s r sk rs).compressed_size_total = s.compressed_size_total)
    ∧ (runStats calls newStats).processed
        = (runStats calls newStats).skipped + (runStats calls newStats).success
          + (runStats calls newStats).failed := by
  have hstep : ∀ (s' : CompressionStats) (r' : CompressionResult) (sk' : Bool) (rs' : Str),
      s'.processed = s'.skipped + s'.success + s'.failed →
      (add_result s' r' sk' rs').processed
        = (add_result s' r' sk' rs').skipped + (add_result s' r' sk' rs').success
          + (add_result s' r' sk' rs').failed := by
    intro s' r' sk' rs' h
    unfold add_result
    by_cases hsk : sk' = true
    · simp [hsk]; omega
    · have hsk' : sk' = false := by revert hsk; cases sk' <;> simp
      by_cases hrs : r'.success = true
      · simp [hsk', hrs]; omega
      · have hrs' : r'.success = false := by revert hrs; cases r'.success <;> simp
        simp [hsk', hrs']; omega
  have hinv : ∀ (l : List (CompressionResult × Bool × Str)) (s0 : CompressionStats),
      s0.processed = s0.skipped + s0.success + s0.failed →
      (runStats l s0).processed
        = (runStats l s0).skipped + (runStats l s0).success + (runStats l s0).failed := by
    intro l
    induction l with
    | nil => intro s0 h; exact h
    | cons c rest ih =>
      intro s0 h
      exact ih (add_result s0 c.1 c.2.1 c.2.2) (hstep s0 c.1 c.2.1 c.2.2 h)
  refine ⟨?_, ?_, ?_, ?_, hinv calls newStats rfl⟩
  · unfold add_result
    by_cases hsk : sk = true
    · simp [hsk]
    · have hsk' : sk = false := by revert hsk; cases sk <;> simp
      by_cases hrs : r.success = true
      · simp [hsk', hrs]
      · have hrs' : r.success = false := by revert hrs; cases r.success <;> simp
        simp [hsk', hrs']
  · intro hsk
    unfold add_result
    simp [hsk]
  · intro hsk hrs
    unfold add_result
    simp [hsk, hrs]
  · intro hsk hrs
    unfold add_result
    simp [hsk, hrs]

end CompressPhotoFast
